import Mathlib

/-!
Verification of the signal-fusion search/recommendation pipeline.

The definitions below are a shallow embedding of the Python sources:
* `app/core/query_parser.py` — `QueryParser.parse`
* `app/search/index.py` — `SearchIndex.search`
* `app/recommendation/model.py` — `MockMLModel.predict`
* `app/external/wikipedia.py` — `WikipediaClient.get_signal`
* `app/core/ranker.py` — `Ranker.rank`
* `app/api/search.py` — the `/search` orchestration after the index stage

Python strings are embedded as `List Char`, Python floats as `ℚ` (the claims
under scrutiny are about the arithmetic formulas, ordering and clamping, not
about rounding), Python ints as `Int`/`Nat`.  The global `random` module and
`math.exp`/`hash` of the Python runtime are abstracted as an explicit
environment `PyEnv` threaded through the code in state-passing style, so that
seeding and consumption of randomness is visible in the embedding.
-/

/-! ### Data model (`app/schemas/internal.py`, `app/schemas/response.py`) -/

/-- Query intent enum (`QueryIntent` in `app/schemas/internal.py`). -/
inductive QueryIntent where
  | search : QueryIntent
  | discovery : QueryIntent
deriving DecidableEq

/-- Embeds `ParsedQuery` (`app/schemas/internal.py`). -/
structure ParsedQuery where
  original : List Char
  normalized : List Char
  tokens : List (List Char)
  intent : QueryIntent
  token_count : Nat
deriving DecidableEq

/-- Embeds `SearchIndexResult` (`app/schemas/internal.py`). -/
structure SearchIndexResult where
  doc_id : List Char
  title : List Char
  text : List Char
  base_score : ℚ
  match_count : Nat
deriving DecidableEq

/-- Embeds `FeatureVector` (`app/schemas/internal.py`). -/
structure FeatureVector where
  query_length : Int
  query_token_count : Int
  user_id_hash : Int
  doc_length : Int
  doc_category_encoded : Int
  query_doc_overlap : ℚ
  embedding_dot_product : ℚ
deriving DecidableEq

/-- Embeds `ModelPrediction` (`app/schemas/internal.py`). -/
structure ModelPrediction where
  score : ℚ
  confidence : ℚ
  model_version : List Char
deriving DecidableEq

/-- Embeds `ExternalSignal` (`app/schemas/internal.py`). -/
structure ExternalSignal where
  source : List Char
  relevance_score : ℚ
  description_length : Nat
  popularity_proxy : Option ℚ
deriving DecidableEq

/-- Embeds `ScoreExplanation` (`app/schemas/response.py`). -/
structure ScoreExplanation where
  search : ℚ
  recommendation : ℚ
  external : ℚ
deriving DecidableEq

/-- Embeds `SearchResult` (`app/schemas/response.py`). -/
structure SearchResult where
  doc_id : List Char
  title : List Char
  text : List Char
  score : ℚ
  explanations : ScoreExplanation
deriving DecidableEq

/-- Embeds `ChaosConfig` (`app/schemas/request.py`), rates as rationals. -/
structure ChaosConfig where
  model_failure_rate : ℚ := 5 / 100
  external_api_timeout_rate : ℚ := 1 / 10
  slow_search_rate : ℚ := 2 / 10
  external_api_failure_rate : ℚ := 5 / 100
deriving DecidableEq

/-! ### Query parser (`app/core/query_parser.py`) -/

/-- A regex word character: alphanumeric or underscore.  The source regex
findall of word-boundary-delimited word-character runs splits the normalized
query into maximal runs of such characters. -/
def isWordChar (c : Char) : Bool := c.isAlphanum || c == '_'

/-- Split a character list into the maximal runs of `isWordChar` characters,
accumulating the current (reversed) run; embeds the regex findall tokenization. -/
def tokenizeAux : List Char → List Char → List (List Char)
  | [], acc => if acc.isEmpty then [] else [acc.reverse]
  | c :: cs, acc =>
    if isWordChar c then tokenizeAux cs (c :: acc)
    else if acc.isEmpty then tokenizeAux cs [] else acc.reverse :: tokenizeAux cs []

/-- Tokenization: the maximal word-character runs of the input, in order. -/
def tokenize (l : List Char) : List (List Char) := tokenizeAux l []

/-- Python `str.strip()` on the embedded string: drop whitespace from both ends. -/
def pyStrip (l : List Char) : List Char :=
  ((l.dropWhile Char.isWhitespace).reverse.dropWhile Char.isWhitespace).reverse

/-- Lowercasing and stripping, the first step of `QueryParser.parse`. -/
def normalizeRaw (q : List Char) : List Char := pyStrip (q.map Char.toLower)

/-- The unfiltered token list of `QueryParser.parse` (`tokens` in the source). -/
def rawTokens (q : List Char) : List (List Char) := tokenize (normalizeRaw q)

/-- The configured stop-word set (`settings.stopwords` in `app/core/config.py`). -/
def stopwords : List (List Char) :=
  ["the", "a", "an", "and", "or", "but", "in", "on", "at", "to", "for", "of",
   "with", "by", "from", "as", "is", "was", "are", "were", "be", "been"].map String.toList

/-- The stop-word / length filter of `QueryParser.parse`
(`[t for t in tokens if t not in self.stopwords and len(t) > 1]`). -/
def filteredTokens (q : List Char) : List (List Char) :=
  (rawTokens q).filter (fun t => decide (t ∉ stopwords ∧ 1 < t.length))

/-- Embeds the parse method of the query parser module. -/
def QueryParser.parse (q : List Char) : ParsedQuery :=
  let normalized := normalizeRaw q
  let tokens := tokenize normalized
  let filtered_tokens := tokens.filter (fun t => decide (t ∉ stopwords ∧ 1 < t.length))
  let final_tokens := if filtered_tokens.isEmpty then tokens else filtered_tokens
  { original := q
    normalized := normalized
    tokens := final_tokens
    intent := if final_tokens.length ≤ 2 then QueryIntent.discovery else QueryIntent.search
    token_count := final_tokens.length }

/-! Auxiliary character-level facts used for the parser claims. -/

theorem char_toNat_ofNat_of_lt (n : Nat) (h : n < 55296) : (Char.ofNat n).toNat = n := by
  rw [Char.ofNat, dif_pos (Or.inl h)]
  rfl

theorem uint32_le_iff_toNat_le (a b : UInt32) : a ≤ b ↔ a.toNat ≤ b.toNat := by
  rw [UInt32.le_def, BitVec.le_def]
  exact Iff.rfl

theorem char_isAlphanum_iff (c : Char) :
    c.isAlphanum = true ↔
      (65 ≤ c.toNat ∧ c.toNat ≤ 90) ∨ (97 ≤ c.toNat ∧ c.toNat ≤ 122) ∨
        (48 ≤ c.toNat ∧ c.toNat ≤ 57) := by
  have e65 : (65 : UInt32).toNat = 65 := by decide
  have e90 : (90 : UInt32).toNat = 90 := by decide
  have e97 : (97 : UInt32).toNat = 97 := by decide
  have e122 : (122 : UInt32).toNat = 122 := by decide
  have e48 : (48 : UInt32).toNat = 48 := by decide
  have e57 : (57 : UInt32).toNat = 57 := by decide
  simp only [Char.isAlphanum, Char.isAlpha, Char.isUpper, Char.isLower, Char.isDigit,
    Bool.or_eq_true, Bool.and_eq_true, decide_eq_true_iff, ge_iff_le,
    uint32_le_iff_toNat_le, e65, e90, e97, e122, e48, e57, Char.toNat]
  tauto

theorem char_isAlphanum_not_whitespace (c : Char) (h : c.isAlphanum = true) :
    c.isWhitespace = false := by
  rw [char_isAlphanum_iff] at h
  by_contra hw
  rw [Bool.not_eq_false] at hw
  simp only [Char.isWhitespace, Bool.or_eq_true, decide_eq_true_iff] at hw
  rcases hw with ((h1 | h1) | h1) | h1 <;> subst h1 <;> revert h <;> decide

theorem char_isAlphanum_toLower (c : Char) (h : c.isAlphanum = true) :
    c.toLower.isAlphanum = true := by
  rw [Char.toLower]
  split
  case isTrue hc =>
    have hv : (Char.ofNat (c.toNat + 32)).toNat = c.toNat + 32 :=
      char_toNat_ofNat_of_lt _ (by omega)
    rw [char_isAlphanum_iff, hv]
    omega
  case isFalse hc => exact h

theorem tokenizeAux_ne_nil :
    ∀ (l acc : List Char), (acc ≠ [] ∨ ∃ c ∈ l, isWordChar c = true) →
      tokenizeAux l acc ≠ []
  | [], acc, h => by
    rcases h with h | ⟨c, hc, _⟩
    · simp only [tokenizeAux, List.isEmpty_iff]
      rw [if_neg h]
      simp
    · simp at hc
  | c :: cs, acc, h => by
    rw [tokenizeAux]
    by_cases hw : isWordChar c = true
    · rw [if_pos hw]
      exact tokenizeAux_ne_nil cs (c :: acc) (Or.inl (by simp))
    · rw [if_neg hw]
      by_cases ha : acc.isEmpty
      · rw [if_pos ha]
        rcases h with h | ⟨d, hd, hdw⟩
        · exact absurd (List.isEmpty_iff.mp ha) h
        · rcases List.mem_cons.mp hd with rfl | hd
          · exact absurd hdw hw
          · exact tokenizeAux_ne_nil cs [] (Or.inr ⟨d, hd, hdw⟩)
      · rw [if_neg ha]
        simp

theorem mem_dropWhile_of_neg {p : Char → Bool} {c : Char} (hc : p c = false) :
    ∀ {l : List Char}, c ∈ l → c ∈ l.dropWhile p := by
  intro l
  induction l with
  | nil => simp
  | cons x xs ih =>
    intro hmem
    rw [List.dropWhile_cons]
    by_cases hx : p x = true
    · rw [if_pos hx]
      rcases List.mem_cons.mp hmem with rfl | hmem
      · exact absurd hx (by simp [hc])
      · exact ih hmem
    · rw [if_neg hx]
      exact hmem

theorem mem_pyStrip_of_not_whitespace {c : Char} (hc : c.isWhitespace = false)
    {l : List Char} (hmem : c ∈ l) : c ∈ pyStrip l := by
  unfold pyStrip
  rw [List.mem_reverse]
  exact mem_dropWhile_of_neg hc (by
    rw [List.mem_reverse]
    exact mem_dropWhile_of_neg hc hmem)

theorem rawTokens_ne_nil_of_alphanum {q : List Char}
    (h : ∃ c ∈ q, c.isAlphanum = true) : rawTokens q ≠ [] := by
  obtain ⟨c, hc, ha⟩ := h
  have hlow : (Char.toLower c).isAlphanum = true := char_isAlphanum_toLower c ha
  have hmem : Char.toLower c ∈ normalizeRaw q :=
    mem_pyStrip_of_not_whitespace (char_isAlphanum_not_whitespace _ hlow)
      (List.mem_map_of_mem Char.toLower hc)
  exact tokenizeAux_ne_nil _ []
    (Or.inr ⟨Char.toLower c, hmem, by simp [isWordChar, hlow]⟩)

/-- C4: if filtering stop-words and length-≤1 tokens empties the token list,
`QueryParser.parse` falls back to the unfiltered tokens; for every raw query
containing an alphanumeric character the returned token list is non-empty;
and a query whose tokens are all stop-words yields the unfiltered
tokenization. -/
theorem parse_fallback_spec (q : List Char) :
    (filteredTokens q = [] → (QueryParser.parse q).tokens = rawTokens q)
    ∧ ((∃ c ∈ q, c.isAlphanum = true) → (QueryParser.parse q).tokens ≠ [])
    ∧ ((rawTokens q ≠ [] ∧ ∀ t ∈ rawTokens q, t ∈ stopwords) →
        (QueryParser.parse q).tokens = rawTokens q) := by
  refine ⟨?_, ?_, ?_⟩
  · intro hf
    show (if (filteredTokens q).isEmpty then rawTokens q else filteredTokens q) = rawTokens q
    rw [List.isEmpty_iff.mpr hf]
    simp
  · intro h
    have hraw := rawTokens_ne_nil_of_alphanum h
    show (if (filteredTokens q).isEmpty then rawTokens q else filteredTokens q) ≠ []
    by_cases he : (filteredTokens q).isEmpty
    · rw [if_pos he]
      exact hraw
    · rw [if_neg he]
      exact fun hnil => he (List.isEmpty_iff.mpr hnil)
  · rintro ⟨-, hall⟩
    have hf : filteredTokens q = [] := by
      unfold filteredTokens
      rw [List.filter_eq_nil_iff]
      intro t ht
      simp only [decide_eq_true_iff, not_and]
      intro hns
      exact absurd (hall t ht) hns
    show (if (filteredTokens q).isEmpty then rawTokens q else filteredTokens q) = rawTokens q
    rw [List.isEmpty_iff.mpr hf]
    simp

/-- Witness for `parse_fallback_spec` at the query "the and or" (all stop-words)
and at "hi!": all three hypotheses are discharged on concrete inputs. -/
theorem parse_fallback_spec_witness :
    (QueryParser.parse ("the and or".toList)).tokens = rawTokens ("the and or".toList)
    ∧ (QueryParser.parse ("hi!".toList)).tokens ≠ []
    ∧ (QueryParser.parse ("the and or".toList)).tokens = rawTokens ("the and or".toList) :=
  ⟨(parse_fallback_spec ("the and or".toList)).1 (by decide),
   (parse_fallback_spec ("hi!".toList)).2.1 ⟨'h', by decide, by decide⟩,
   (parse_fallback_spec ("the and or".toList)).2.2 ⟨by decide, by decide⟩⟩

/-! ### Lexical index (`app/search/index.py`) -/

/-- One row of the SQLite FTS5 result set
(doc id, title, text, and the rank aliased as bm25_rank), in the native
rank order of the index (the SQL orders by rank).  The FTS engine itself is the external
storage collaborator; `SearchIndex.search` receives its ordered result set. -/
structure DbRow where
  doc_id : List Char
  title : List Char
  text : List Char
  bm25_rank : ℚ
deriving DecidableEq

/-- Base score normalization from `SearchIndex.search`: one over one plus the
absolute BM25 rank. -/
def baseScoreOfRank (r : ℚ) : ℚ := 1 / (1 + |r|)

/-- Match counting from `SearchIndex.search`: the number of query tokens that
occur, case-insensitively, as substrings of the title and text joined by a
space. -/
def matchCountOf (tokens : List (List Char)) (title text : List Char) : Nat :=
  (tokens.filter
    (fun t => decide (t <:+: (title ++ ' ' :: text).map Char.toLower))).length

/-- The per-row result construction of `SearchIndex.search` (snippet truncation
to 200 characters, BM25 rank normalization, token match counting). -/
def rowToResult (pq : ParsedQuery) (row : DbRow) : SearchIndexResult :=
  { doc_id := row.doc_id
    title := row.title
    text := row.text.take 200
    base_score := baseScoreOfRank row.bm25_rank
    match_count := matchCountOf pq.tokens row.title row.text }

/-- Embeds `SearchIndex.search` (`app/search/index.py`): `rows` is the FTS result set
in native rank order; the SQL `LIMIT ?` with argument `limit * 2` takes the
first `2*limit` rows, and the final `results[:limit]` truncates to `limit`. -/
def SearchIndex.search (rows : List DbRow) (pq : ParsedQuery) (limit : Nat) :
    List SearchIndexResult :=
  let fetched := rows.take (limit * 2)
  let results := fetched.map (rowToResult pq)
  results.take limit

/-- C3: `SearchIndex.search` returns at most `limit` candidates, namely the
first `limit` of the up-to-`2*limit` retrieved rows in index order, each with
`base_score = 1/(1+|rank|)`, a value in `(0, 1]` strictly decreasing in the
rank magnitude. -/
theorem search_truncation_spec (rows : List DbRow) (pq : ParsedQuery) (limit : Nat)
    (htok : pq.tokens ≠ []) (hlim : 1 ≤ limit) :
    (SearchIndex.search rows pq limit).length ≤ limit
    ∧ SearchIndex.search rows pq limit = ((rows.take (limit * 2)).map (rowToResult pq)).take limit
    ∧ SearchIndex.search rows pq limit = (rows.map (rowToResult pq)).take limit
    ∧ (∀ i (hi : i < (SearchIndex.search rows pq limit).length) (hr : i < rows.length),
        ((SearchIndex.search rows pq limit).get ⟨i, hi⟩).base_score
          = baseScoreOfRank ((rows.get ⟨i, hr⟩).bm25_rank))
    ∧ (∀ r : ℚ, 0 < baseScoreOfRank r ∧ baseScoreOfRank r ≤ 1)
    ∧ (∀ r₁ r₂ : ℚ, |r₁| < |r₂| → baseScoreOfRank r₂ < baseScoreOfRank r₁) := by
  have hpos : ∀ r : ℚ, (0 : ℚ) < 1 + |r| := fun r => by positivity
  have heq : SearchIndex.search rows pq limit = (rows.map (rowToResult pq)).take limit := by
    show (((rows.take (limit * 2)).map (rowToResult pq)).take limit : List SearchIndexResult)
        = (rows.map (rowToResult pq)).take limit
    rw [← List.map_take, List.take_take, Nat.min_eq_left (by omega), List.map_take]
  refine ⟨?_, rfl, heq, ?_, ?_, ?_⟩
  · rw [heq]
    exact (List.length_take _ _).le.trans (Nat.min_le_left _ _)
  · intro i hi hr
    revert hi
    rw [heq]
    intro hi
    simp only [List.get_eq_getElem, List.getElem_take, List.getElem_map]
    rfl
  · intro r
    constructor
    · unfold baseScoreOfRank
      positivity
    · unfold baseScoreOfRank
      rw [div_le_one (hpos r)]
      have := abs_nonneg r
      linarith
  · intro r₁ r₂ h
    unfold baseScoreOfRank
    apply div_lt_div_of_pos_left one_pos (hpos r₁)
    linarith

/-- Witness for `search_truncation_spec` on a concrete two-row index result
with `limit = 1`. -/
theorem search_truncation_spec_witness :
    ((SearchIndex.search
        [⟨"d1".toList, "t1".toList, "x".toList, -2⟩,
         ⟨"d2".toList, "t2".toList, "y".toList, -1⟩]
        (QueryParser.parse ("hello".toList)) 1).length ≤ 1)
    ∧ (∀ r : ℚ, 0 < baseScoreOfRank r ∧ baseScoreOfRank r ≤ 1) := by
  have h := search_truncation_spec
    [⟨"d1".toList, "t1".toList, "x".toList, -2⟩,
     ⟨"d2".toList, "t2".toList, "y".toList, -1⟩]
    (QueryParser.parse ("hello".toList)) 1 (by decide) (by decide)
  exact ⟨h.1, h.2.2.2.2.1⟩

/-- C10: every candidate returned by `SearchIndex.search` has
`match_count` between `0` and the number of query tokens. -/
theorem match_count_bounded (rows : List DbRow) (pq : ParsedQuery) (limit : Nat)
    (res : SearchIndexResult) (h : res ∈ SearchIndex.search rows pq limit) :
    0 ≤ res.match_count ∧ res.match_count ≤ pq.tokens.length := by
  refine ⟨Nat.zero_le _, ?_⟩
  have h1 : res ∈ (rows.take (limit * 2)).map (rowToResult pq) :=
    List.mem_of_mem_take h
  obtain ⟨row, _, rfl⟩ := List.mem_map.mp h1
  exact List.length_filter_le _ _

/-- Witness for `match_count_bounded` on a concrete row whose text matches the
token "hello". -/
theorem match_count_bounded_witness :
    0 ≤ (rowToResult (QueryParser.parse ("hello".toList))
          ⟨"d1".toList, "say Hello".toList, "x".toList, -2⟩).match_count
    ∧ (rowToResult (QueryParser.parse ("hello".toList))
          ⟨"d1".toList, "say Hello".toList, "x".toList, -2⟩).match_count
        ≤ (QueryParser.parse ("hello".toList)).tokens.length := by
  have hs : SearchIndex.search [⟨"d1".toList, "say Hello".toList, "x".toList, -2⟩]
      (QueryParser.parse ("hello".toList)) 1
      = [rowToResult (QueryParser.parse ("hello".toList))
          ⟨"d1".toList, "say Hello".toList, "x".toList, -2⟩] := rfl
  refine match_count_bounded
    [⟨"d1".toList, "say Hello".toList, "x".toList, -2⟩]
    (QueryParser.parse ("hello".toList)) 1 _ ?_
  rw [hs]
  exact List.mem_singleton_self _

/-! ### Fusion ranker (`app/core/ranker.py`) -/

/-- Weight configuration of the ranker (the constructor reads
`settings.weight_search` etc., defaults 0.5 / 0.3 / 0.2 from
`app/core/config.py`). -/
structure Ranker where
  weight_search : ℚ := 1 / 2
  weight_recommendation : ℚ := 3 / 10
  weight_external : ℚ := 1 / 5
deriving DecidableEq

/-- A `Ranker` built with the default settings. -/
def defaultRanker : Ranker := {}

/-- Recommendation component: the matching prediction score if a prediction is
present, else zero; the predictions dict is embedded as a lookup function. -/
def recommendationScoreOf (preds : List Char → Option ModelPrediction)
    (doc_id : List Char) : ℚ :=
  match preds doc_id with
  | some p => p.score
  | none => 0

/-- External component: the relevance score of the signal if present, else zero. -/
def externalScoreOf (sig : Option ExternalSignal) : ℚ :=
  match sig with
  | some s => s.relevance_score
  | none => 0

/-- The `SearchResult` built for one document inside the loop of `Ranker.rank`:
the final score is the weighted sum of base score, recommendation score and
external score, together with its `ScoreExplanation`. -/
def rankedResultOf (R : Ranker) (preds : List Char → Option ModelPrediction)
    (external_score : ℚ) (doc : SearchIndexResult) : SearchResult :=
  { doc_id := doc.doc_id
    title := doc.title
    text := doc.text
    score := R.weight_search * doc.base_score
      + R.weight_recommendation * recommendationScoreOf preds doc.doc_id
      + R.weight_external * external_score
    explanations :=
      { search := doc.base_score
        recommendation := recommendationScoreOf preds doc.doc_id
        external := external_score } }

/-- The descending-score preorder used by
`ranked_results.sort(key=lambda x: x.score, reverse=True)`. -/
def scoreGe (a b : SearchResult) : Prop := b.score ≤ a.score

instance : DecidableRel scoreGe :=
  fun a b => inferInstanceAs (Decidable (b.score ≤ a.score))

instance : IsTotal SearchResult scoreGe := ⟨fun a b => le_total b.score a.score⟩

instance : IsTrans SearchResult scoreGe := ⟨fun _ _ _ h1 h2 => le_trans h2 h1⟩

/-- The Python list sort with a score key and reverse flag is a stable
descending sort; the output of a stable sort is uniquely determined by the key
preorder and the input order, so it is embedded as insertion sort with
`scoreGe` (which is stable: an element is inserted after all earlier elements
of equal score). -/
def sortDescByScore (l : List SearchResult) : List SearchResult :=
  l.insertionSort scoreGe

/-- Embeds `Ranker.rank` (`app/core/ranker.py`): build one scored `SearchResult` per
input candidate, then sort by final score descending (stable). -/
def Ranker.rank (R : Ranker) (search_results : List SearchIndexResult)
    (model_predictions : List Char → Option ModelPrediction)
    (external_signal : Option ExternalSignal) : List SearchResult :=
  let external_score := externalScoreOf external_signal
  let ranked_results := search_results.map (rankedResultOf R model_predictions external_score)
  sortDescByScore ranked_results

theorem filter_score_orderedInsert (q : ℚ) (x : SearchResult) :
    ∀ l : List SearchResult,
      (l.orderedInsert scoreGe x).filter (fun r => decide (r.score = q))
        = if x.score = q
          then x :: l.filter (fun r => decide (r.score = q))
          else l.filter (fun r => decide (r.score = q))
  | [] => by
    by_cases hx : x.score = q
    · simp [List.orderedInsert, hx]
    · simp [List.orderedInsert, hx]
  | y :: l => by
    rw [List.orderedInsert]
    by_cases hins : scoreGe x y
    · rw [if_pos hins]
      by_cases hx : x.score = q
      · rw [if_pos hx]
        rw [List.filter_cons_of_pos (by simpa using hx)]
      · rw [if_neg hx]
        rw [List.filter_cons_of_neg (by simpa using hx)]
    · rw [if_neg hins]
      have hlt : x.score < y.score := lt_of_not_le hins
      by_cases hx : x.score = q
      · have hy : ¬(y.score = q) := by
          rw [← hx]
          exact ne_of_gt hlt
        rw [if_pos hx, List.filter_cons_of_neg (by simpa using hy),
          List.filter_cons_of_neg (by simpa using hy),
          filter_score_orderedInsert q x l, if_pos hx]
      · rw [if_neg hx]
        by_cases hy : y.score = q
        · rw [List.filter_cons_of_pos (by simpa using hy),
            List.filter_cons_of_pos (by simpa using hy),
            filter_score_orderedInsert q x l, if_neg hx]
        · rw [List.filter_cons_of_neg (by simpa using hy),
            List.filter_cons_of_neg (by simpa using hy),
            filter_score_orderedInsert q x l, if_neg hx]

theorem filter_score_insertionSort (q : ℚ) :
    ∀ l : List SearchResult,
      (l.insertionSort scoreGe).filter (fun r => decide (r.score = q))
        = l.filter (fun r => decide (r.score = q))
  | [] => rfl
  | x :: l => by
    rw [List.insertionSort, filter_score_orderedInsert q x (l.insertionSort scoreGe)]
    by_cases hx : x.score = q
    · rw [if_pos hx, filter_score_insertionSort q l,
        List.filter_cons_of_pos (by simpa using hx)]
    · rw [if_neg hx, filter_score_insertionSort q l,
        List.filter_cons_of_neg (by simpa using hx)]

/-- C1: `Ranker.rank` returns exactly one result per candidate (a permutation
of the per-candidate scored results, same length), each scored by
the weighted sum of the base score, the prediction score (or 0 when the
prediction is absent) and the signal relevance score (or 0 when the signal is
absent), with the same external component for every candidate;
the output is sorted non-increasingly by final score, candidates of equal
final score stay in input order, and the default weights are 0.5/0.3/0.2. -/
theorem rank_spec (R : Ranker) (cs : List SearchIndexResult)
    (preds : List Char → Option ModelPrediction) (sig : Option ExternalSignal) :
    (Ranker.rank R cs preds sig).Perm
        (cs.map (rankedResultOf R preds (externalScoreOf sig)))
    ∧ (Ranker.rank R cs preds sig).length = cs.length
    ∧ (∀ d : SearchIndexResult,
        (rankedResultOf R preds (externalScoreOf sig) d).score
          = R.weight_search * d.base_score
            + R.weight_recommendation
              * (match preds d.doc_id with | some p => p.score | none => 0)
            + R.weight_external
              * (match sig with | some s => s.relevance_score | none => 0))
    ∧ (Ranker.rank R cs preds sig).Pairwise (fun a b => b.score ≤ a.score)
    ∧ (∀ q : ℚ,
        (Ranker.rank R cs preds sig).filter (fun r => decide (r.score = q))
          = (cs.map (rankedResultOf R preds (externalScoreOf sig))).filter
              (fun r => decide (r.score = q)))
    ∧ defaultRanker.weight_search = 1 / 2
    ∧ defaultRanker.weight_recommendation = 3 / 10
    ∧ defaultRanker.weight_external = 1 / 5 := by
  refine ⟨List.perm_insertionSort scoreGe _, ?_, fun d => rfl, ?_, ?_, rfl, rfl, rfl⟩
  · exact (List.length_insertionSort _ _).trans (List.length_map _ _)
  · exact List.sorted_insertionSort scoreGe _
  · intro q
    exact filter_score_insertionSort q _

/-- C9: re-applying the ranking rule (the stable descending sort on final
score) to the sequence `Ranker.rank` already produced yields the identical
sequence. -/
theorem rank_idempotent (R : Ranker) (cs : List SearchIndexResult)
    (preds : List Char → Option ModelPrediction) (sig : Option ExternalSignal) :
    sortDescByScore (Ranker.rank R cs preds sig) = Ranker.rank R cs preds sig :=
  List.Sorted.insertionSort_eq (List.sorted_insertionSort scoreGe _)

/-! ### Scorer (`app/recommendation/model.py`) -/

/-- The ambient Python runtime effects used by `MockMLModel.predict` and
`WikipediaClient.get_signal`: the global `random` module as an explicit state
type `σ` (with `random.random()` guaranteed to land in `[0, 1)`),
`random.seed(n)` as a deterministic re-seeding, `random.seed()` as a
re-seeding from an OS entropy token, and `math.exp` / tuple `hash` as opaque
deterministic functions. -/
structure PyEnv (σ : Type) where
  next : σ → ℚ × σ
  next_nonneg : ∀ s, 0 ≤ (next s).1
  next_lt_one : ∀ s, (next s).1 < 1
  uniform : ℚ → ℚ → σ → ℚ × σ
  seedInt : Int → σ
  seedSys : Nat → σ
  exp : ℚ → ℚ
  hash4 : Int → Int → Int → Int → Int

/-- The noise-free part of the score of `MockMLModel.predict`: weighted feature
combination followed by the logistic squash
`1.0 / (1.0 + math.exp(-5 * (score - 0.5)))`. -/
def sigmoidScore (σ : Type) (E : PyEnv σ) (f : FeatureVector) : ℚ :=
  let match_quality := (f.query_doc_overlap + max 0 f.embedding_dot_product) / 2
  let score :=
    (30 / 100) * f.query_doc_overlap
    + (25 / 100) * max 0 f.embedding_dot_product
    + (15 / 100) * min ((f.query_token_count : ℚ) / 10) 1
    + (10 / 100) * ((f.doc_category_encoded : ℚ) / 4)
    + (20 / 100) * match_quality
  1 / (1 + E.exp (-5 * (score - 1 / 2)))

/-- The deterministic noise draw of `MockMLModel.predict`: the generator is
seeded with the hash of the four integer features and a uniform draw in
[-0.05, 0.05] is taken.  By construction it depends only on the feature hash,
never on the incoming generator state. -/
def noiseOf (σ : Type) (E : PyEnv σ) (f : FeatureVector) : ℚ :=
  (E.uniform (-(5 / 100)) (5 / 100)
    (E.seedInt (E.hash4 f.query_length f.query_token_count f.user_id_hash f.doc_length))).1

/-- Embeds `MockMLModel.predict` (`app/recommendation/model.py`) in state-passing
style over the shared `random` generator.  Returns `none` for the raised
`ModelError` when the chaos trial fires (the caller catches it), otherwise the
prediction; the second component is the state of the shared generator after
the call.  `ent` is the OS entropy token consumed by the trailing
`random.seed()`. -/
def MockMLModel.predict (σ : Type) (E : PyEnv σ) (cfg : ChaosConfig)
    (f : FeatureVector) (s : σ) (ent : Nat) : Option ModelPrediction × σ :=
  let trial := E.next s
  if trial.1 < cfg.model_failure_rate then
    (none, trial.2)
  else
    let inference := E.uniform (10 / 1000) (50 / 1000) trial.2
    let slow := E.next inference.2
    let score0 := sigmoidScore σ E f
    let seeded := E.seedInt (E.hash4 f.query_length f.query_token_count
      f.user_id_hash f.doc_length)
    let noise := (E.uniform (-(5 / 100)) (5 / 100) seeded).1
    let reseeded := E.seedSys ent
    let score := max 0 (min 1 (score0 + noise))
    let _ := slow
    (some { score := score
            confidence := |score - 1 / 2| * 2
            model_version := "mock_v1".toList }, reseeded)

/-- C5: two successful `MockMLModel.predict` calls on the identical
`FeatureVector` return bit-identical scores — the pseudo-noise is a function
of the feature hash only, independent of the incoming generator state, the
entropy source and the chaos configuration. -/
theorem predict_deterministic (σ : Type) (E : PyEnv σ) (cfg cfg' : ChaosConfig)
    (f : FeatureVector) (s₁ s₂ : σ) (e₁ e₂ : Nat) (p₁ p₂ : ModelPrediction)
    (h₁ : (MockMLModel.predict σ E cfg f s₁ e₁).1 = some p₁)
    (h₂ : (MockMLModel.predict σ E cfg' f s₂ e₂).1 = some p₂) :
    p₁.score = p₂.score := by
  unfold MockMLModel.predict at h₁ h₂
  by_cases hc₁ : (E.next s₁).1 < cfg.model_failure_rate
  · rw [if_pos hc₁] at h₁
    exact absurd h₁ (by simp)
  · rw [if_neg hc₁] at h₁
    by_cases hc₂ : (E.next s₂).1 < cfg'.model_failure_rate
    · rw [if_pos hc₂] at h₂
      exact absurd h₂ (by simp)
    · rw [if_neg hc₂] at h₂
      have e₁ := (Option.some.injEq _ _).mp h₁.symm
      have e₂ := (Option.some.injEq _ _).mp h₂.symm
      rw [e₁, e₂]

/-- C7: a successful `MockMLModel.predict` returns a score clamped to `[0,1]`
and `confidence = |score - 0.5| * 2`, which therefore lies in `[0,1]`, is `0`
at score `0.5` and `1` at scores `0` and `1`. -/
theorem predict_clamp (σ : Type) (E : PyEnv σ) (cfg : ChaosConfig)
    (f : FeatureVector) (s : σ) (ent : Nat) (p : ModelPrediction)
    (h : (MockMLModel.predict σ E cfg f s ent).1 = some p) :
    0 ≤ p.score ∧ p.score ≤ 1 ∧ p.confidence = |p.score - 1 / 2| * 2
    ∧ 0 ≤ p.confidence ∧ p.confidence ≤ 1
    ∧ (p.score = 1 / 2 → p.confidence = 0)
    ∧ ((p.score = 0 ∨ p.score = 1) → p.confidence = 1) := by
  unfold MockMLModel.predict at h
  by_cases hc : (E.next s).1 < cfg.model_failure_rate
  · rw [if_pos hc] at h
    exact absurd h (by simp)
  · rw [if_neg hc] at h
    have hp := (Option.some.injEq _ _).mp h.symm
    have hs0 : 0 ≤ p.score := by
      rw [hp]
      exact le_max_left 0 _
    have hs1 : p.score ≤ 1 := by
      rw [hp]
      exact max_le zero_le_one (min_le_left 1 _)
    have hcf : p.confidence = |p.score - 1 / 2| * 2 := by
      rw [hp]
    refine ⟨hs0, hs1, hcf, ?_, ?_, ?_, ?_⟩
    · rw [hcf]
      positivity
    · rw [hcf]
      have habs : |p.score - 1 / 2| ≤ 1 / 2 :=
        abs_le.mpr ⟨by linarith, by linarith⟩
      linarith
    · intro hmid
      rw [hcf, hmid]
      norm_num
    · rintro (hz | ho)
      · rw [hcf, hz, abs_sub_comm,
          abs_of_nonneg (by norm_num : (0 : ℚ) ≤ 1 / 2 - 0)]
        norm_num
      · rw [hcf, ho,
          abs_of_nonneg (by norm_num : (0 : ℚ) ≤ 1 - 1 / 2)]
        norm_num

/-! Concrete runtime environment used to witness the scorer theorems:
`σ = Nat` counts generator advances, `random.random()` always returns `1/2`,
`random.uniform(a, b)` returns the midpoint, `random.seed(n)` moves to state
`n.toNat`, `random.seed()` moves to the entropy token, `math.exp` is the
constant `1`, and the tuple hash is the sum. -/

def E0 : PyEnv Nat where
  next := fun s => (1 / 2, s + 1)
  next_nonneg := fun _ => by norm_num
  next_lt_one := fun _ => by norm_num
  uniform := fun a b s => ((a + b) / 2, s + 1)
  seedInt := fun n => n.toNat
  seedSys := fun e => e
  exp := fun _ => 1
  hash4 := fun a b c d => a + b + c + d

/-- A chaos configuration with every failure rate forced to `0`. -/
def cfg0 : ChaosConfig :=
  { model_failure_rate := 0
    external_api_timeout_rate := 0
    slow_search_rate := 0
    external_api_failure_rate := 0 }

/-- The all-zero feature vector. -/
def f0 : FeatureVector := ⟨0, 0, 0, 0, 0, 0, 0⟩

/-- The prediction `MockMLModel.predict` produces under `E0` on `f0`. -/
def pd0 : ModelPrediction :=
  { score := 1 / 2, confidence := 0, model_version := "mock_v1".toList }

theorem predict_E0_eval (s ent : Nat) :
    MockMLModel.predict Nat E0 cfg0 f0 s ent = (some pd0, ent) := by
  unfold MockMLModel.predict
  rw [if_neg (by norm_num [E0, cfg0])]
  have hscore : sigmoidScore Nat E0 f0 = 1 / 2 := by
    norm_num [sigmoidScore, E0, f0]
  have hnoise : (E0.uniform (-(5 / 100)) (5 / 100)
      (E0.seedInt (E0.hash4 f0.query_length f0.query_token_count
        f0.user_id_hash f0.doc_length))).1 = 0 := by
    norm_num [E0, f0]
  rw [hscore]
  dsimp only
  rw [hnoise]
  have hmin : min (1 : ℚ) (1 / 2 + 0) = 1 / 2 := by
    rw [min_eq_right] <;> norm_num
  have hmax : max (0 : ℚ) (1 / 2) = 1 / 2 := by
    rw [max_eq_right] <;> norm_num
  rw [hmin, hmax]
  norm_num [E0, pd0]

/-- C6 (refuted): the "pure" deterministic-noise step of
`MockMLModel.predict` does NOT leave the shared generator untouched — the
source calls `random.seed(feature_hash)` and then `random.seed()` on the
global generator, so after a successful call the generator state is the fresh
entropy-derived state (here `0`), not the incoming state (here `10`). -/
theorem predict_reseeds_shared_generator :
    (MockMLModel.predict Nat E0 cfg0 f0 10 0).1 = some pd0
    ∧ (MockMLModel.predict Nat E0 cfg0 f0 10 0).2 ≠ 10 := by
  rw [predict_E0_eval]
  exact ⟨rfl, by norm_num⟩

/-- Witness for `predict_deterministic`: two calls from different generator
states (3 and 77) and entropy tokens (0 and 9) both succeed with `pd0`. -/
theorem predict_deterministic_witness : pd0.score = pd0.score :=
  predict_deterministic Nat E0 cfg0 cfg0 f0 3 77 0 9 pd0 pd0
    (by rw [predict_E0_eval]) (by rw [predict_E0_eval])

/-- Witness for `predict_clamp` at the concrete successful call under `E0`. -/
theorem predict_clamp_witness :
    0 ≤ pd0.score ∧ pd0.score ≤ 1 ∧ pd0.confidence = |pd0.score - 1 / 2| * 2
    ∧ 0 ≤ pd0.confidence ∧ pd0.confidence ≤ 1
    ∧ (pd0.score = 1 / 2 → pd0.confidence = 0)
    ∧ ((pd0.score = 0 ∨ pd0.score = 1) → pd0.confidence = 1) :=
  predict_clamp Nat E0 cfg0 f0 5 2 pd0 (by rw [predict_E0_eval])

/-! ### External signal source (`app/external/wikipedia.py`) -/

/-- The decoded JSON body and status of the upstream HTTP response
(the status code, the optional extract field, and the optional pageviews
field). -/
structure WikiResponse where
  status_code : Nat
  extract : Option (List Char)
  pageviews : Option Int
deriving DecidableEq

/-- Outcome of `WikipediaClient.get_signal` as seen by its caller: `raised`
models the `httpx` exceptions thrown by the chaos trials (the caller catches
them), `value` the normal return. -/
inductive ExtOutcome where
  | raised : ExtOutcome
  | value : Option ExternalSignal → ExtOutcome
deriving DecidableEq

/-- Saturating relevance score: the description length over 500, capped at 1. -/
def relevanceOfLength (n : Nat) : ℚ := min ((n : ℚ) / 500) 1

/-- The pure response-processing part of `WikipediaClient.get_signal`: a
transport error (`none`) or a non-200 status collapses to no signal; a 200
response yields a signal with the saturating relevance score and, when the
body carries `pageviews`, the saturating popularity proxy
`min(pageviews / 10000.0, 1.0)`. -/
def pureSignal : Option WikiResponse → Option ExternalSignal
  | none => none
  | some resp =>
    if resp.status_code = 200 then
      let description := resp.extract.getD []
      some { source := "wikipedia".toList
             relevance_score := relevanceOfLength description.length
             description_length := description.length
             popularity_proxy := resp.pageviews.map (fun v : Int => min ((v : ℚ) / 10000) 1) }
    else none

/-- Embeds the get_signal method of the Wikipedia client: the two chaos
trials raise (first failure, then timeout), otherwise the topic — the first
query token, defaulting to "search" — keys a single upstream fetch whose
response is processed by `pureSignal`. -/
def WikipediaClient.get_signal (σ : Type) (E : PyEnv σ) (cfg : ChaosConfig)
    (pq : ParsedQuery) (fetch : List Char → Option WikiResponse) (s : σ) :
    ExtOutcome × σ :=
  let t₁ := E.next s
  if t₁.1 < cfg.external_api_failure_rate then
    (ExtOutcome.raised, t₁.2)
  else
    let t₂ := E.next t₁.2
    if t₂.1 < cfg.external_api_timeout_rate then
      (ExtOutcome.raised, t₂.2)
    else
      let topic := pq.tokens.headD ("search".toList)
      (ExtOutcome.value (pureSignal (fetch topic)), t₂.2)

/-- C8: a successful well-formed response produces
`relevance_score = min(descriptionLength / 500, 1)`, a monotone non-decreasing
function of the character count of the extract lying in `[0,1]` and equal to `1`
from length `500` on, and `popularity_proxy = min(pageviews / 10000, 1)`
whenever the body has a `pageviews` field. -/
theorem get_signal_wellformed (σ : Type) (E : PyEnv σ) (cfg : ChaosConfig)
    (pq : ParsedQuery) (fetch : List Char → Option WikiResponse)
    (resp : WikiResponse) (s s' : σ) (sig : ExternalSignal)
    (hf : fetch (pq.tokens.headD ("search".toList)) = some resp)
    (h : WikipediaClient.get_signal σ E cfg pq fetch s = (ExtOutcome.value (some sig), s')) :
    sig.relevance_score = relevanceOfLength (resp.extract.getD []).length
    ∧ sig.description_length = (resp.extract.getD []).length
    ∧ (∀ v : Int, resp.pageviews = some v →
        sig.popularity_proxy = some (min ((v : ℚ) / 10000) 1))
    ∧ 0 ≤ sig.relevance_score ∧ sig.relevance_score ≤ 1
    ∧ (500 ≤ (resp.extract.getD []).length →
        sig.relevance_score = 1)
    ∧ (∀ n m : Nat, n ≤ m → relevanceOfLength n ≤ relevanceOfLength m) := by
  unfold WikipediaClient.get_signal at h
  by_cases h₁ : (E.next s).1 < cfg.external_api_failure_rate
  · rw [if_pos h₁] at h
    exact absurd ((Prod.mk.injEq _ _ _ _).mp h).1 (by simp)
  · rw [if_neg h₁] at h
    by_cases h₂ : (E.next (E.next s).2).1 < cfg.external_api_timeout_rate
    · rw [if_pos h₂] at h
      exact absurd ((Prod.mk.injEq _ _ _ _).mp h).1 (by simp)
    · rw [if_neg h₂] at h
      have hv : pureSignal (fetch (pq.tokens.headD ("search".toList)))
          = some sig := by
        have := ((Prod.mk.injEq _ _ _ _).mp h).1
        exact (ExtOutcome.value.injEq _ _).mp this
      rw [hf] at hv
      simp only [pureSignal] at hv
      by_cases hst : resp.status_code = 200
      · rw [if_pos hst] at hv
        have hsig := (Option.some.injEq _ _).mp hv.symm
        have hrel : sig.relevance_score
            = relevanceOfLength (resp.extract.getD []).length := by
          rw [hsig]
        have hmono : ∀ n m : Nat, n ≤ m →
            relevanceOfLength n ≤ relevanceOfLength m := by
          intro n m hnm
          unfold relevanceOfLength
          have hc : (n : ℚ) ≤ (m : ℚ) := by exact_mod_cast hnm
          exact min_le_min (by linarith) le_rfl
        refine ⟨hrel, by rw [hsig], ?_, ?_, ?_, ?_, hmono⟩
        · intro v hpv
          rw [hsig]
          show (resp.pageviews.map (fun v : Int => min ((v : ℚ) / 10000) 1))
              = some (min ((v : ℚ) / 10000) 1)
          rw [hpv]
          rfl
        · rw [hrel]
          unfold relevanceOfLength
          positivity
        · rw [hrel]
          exact min_le_right _ _
        · intro h500
          rw [hrel]
          unfold relevanceOfLength
          rw [min_eq_right]
          have : (500 : ℚ) ≤ ((resp.extract.getD []).length : ℚ) := by
            exact_mod_cast h500
          rw [le_div_iff (by norm_num)]
          linarith
      · rw [if_neg hst] at hv
        exact absurd hv (by simp)

/-- Witness for `get_signal_wellformed` on a concrete 200 response with a
3-character extract and 20000 pageviews, with all chaos rates zero. -/
theorem get_signal_wellformed_witness :
    ({ source := "wikipedia".toList
       relevance_score := relevanceOfLength 3
       description_length := 3
       popularity_proxy := some (min ((20000 : ℚ) / 10000) 1) }
        : ExternalSignal).relevance_score = relevanceOfLength 3
    ∧ (∀ n m : Nat, n ≤ m → relevanceOfLength n ≤ relevanceOfLength m) := by
  have h := get_signal_wellformed Nat E0 cfg0
    ⟨[], [], [], QueryIntent.discovery, 0⟩
    (fun _ => some ⟨200, some ("abc".toList), some 20000⟩)
    ⟨200, some ("abc".toList), some 20000⟩ 0 2
    { source := "wikipedia".toList
      relevance_score := relevanceOfLength 3
      description_length := 3
      popularity_proxy := some (min ((20000 : ℚ) / 10000) 1) }
    rfl
    (by
      unfold WikipediaClient.get_signal
      rw [if_neg (by norm_num [E0, cfg0]), if_neg (by norm_num [E0, cfg0])]
      rfl)
  exact ⟨h.1, h.2.2.2.2.2.2⟩

/-! ### Request orchestration (`app/api/search.py`, after the index stage) -/

/-- The per-document prediction loop of the `/search` handler: the features of
each document are built and scored; a `ModelError` (`none`) is caught and the
document simply gets no entry in the `model_predictions` dict, while the
shared generator state advances either way.  `featuresOf` abstracts
`FeatureBuilder.build_features` (a pure lookup against the read-only catalog).
-/
def predsLoop (σ : Type) (E : PyEnv σ) (cfg : ChaosConfig)
    (featuresOf : SearchIndexResult → FeatureVector) :
    List SearchIndexResult → (List Char → Option ModelPrediction) → σ → Nat →
      (List Char → Option ModelPrediction) × σ
  | [], acc, s, _ => (acc, s)
  | d :: ds, acc, s, ent =>
    let r := MockMLModel.predict σ E cfg (featuresOf d) s ent
    let acc' := match r.1 with
      | some p => fun k => if k = d.doc_id then some p else acc k
      | none => acc
    predsLoop σ E cfg featuresOf ds acc' r.2 (ent + 1)

/-- Steps 3–5 of the `/search` handler (`app/api/search.py`): run the
prediction loop over the index results, call the Wikipedia client once —
any exception it raises is caught and leaves `external_signal = None` — and
rank.  The mandatory parse and index stages have already succeeded and
produced `pq` and `search_results`. -/
def searchHandlerAfterIndex (σ : Type) (E : PyEnv σ) (cfg : ChaosConfig)
    (featuresOf : SearchIndexResult → FeatureVector) (R : Ranker)
    (search_results : List SearchIndexResult)
    (fetch : List Char → Option WikiResponse) (pq : ParsedQuery) (s : σ) :
    List SearchResult :=
  let pl := predsLoop σ E cfg featuresOf search_results (fun _ => none) s 0
  let ext := WikipediaClient.get_signal σ E cfg pq fetch pl.2
  let external_signal := match ext.1 with
    | ExtOutcome.raised => none
    | ExtOutcome.value o => o
  Ranker.rank R search_results pl.1 external_signal

theorem predict_fails_of_rate_one (σ : Type) (E : PyEnv σ) (cfg : ChaosConfig)
    (f : FeatureVector) (s : σ) (ent : Nat) (h : cfg.model_failure_rate = 1) :
    MockMLModel.predict σ E cfg f s ent = (none, (E.next s).2) := by
  unfold MockMLModel.predict
  rw [if_pos (by rw [h]; exact E.next_lt_one s)]

theorem predsLoop_rate_one (σ : Type) (E : PyEnv σ) (cfg : ChaosConfig)
    (featuresOf : SearchIndexResult → FeatureVector)
    (h : cfg.model_failure_rate = 1) :
    ∀ (l : List SearchIndexResult) (acc : List Char → Option ModelPrediction)
      (s : σ) (ent : Nat),
      (predsLoop σ E cfg featuresOf l acc s ent).1 = acc
  | [], _, _, _ => rfl
  | d :: ds, acc, s, ent => by
    rw [predsLoop, predict_fails_of_rate_one σ E cfg (featuresOf d) s ent h]
    exact predsLoop_rate_one σ E cfg featuresOf h ds acc _ _

theorem get_signal_no_chaos (σ : Type) (E : PyEnv σ) (cfg : ChaosConfig)
    (pq : ParsedQuery) (fetch : List Char → Option WikiResponse) (s : σ)
    (hf : cfg.external_api_failure_rate = 0)
    (ht : cfg.external_api_timeout_rate = 0) :
    WikipediaClient.get_signal σ E cfg pq fetch s
      = (ExtOutcome.value (pureSignal (fetch (pq.tokens.headD ("search".toList)))),
          (E.next (E.next s).2).2) := by
  unfold WikipediaClient.get_signal
  rw [if_neg (by rw [hf]; exact not_lt.mpr (E.next_nonneg s)),
    if_neg (by rw [ht]; exact not_lt.mpr (E.next_nonneg (E.next s).2))]

theorem get_signal_raises_of_rate_one (σ : Type) (E : PyEnv σ) (cfg : ChaosConfig)
    (pq : ParsedQuery) (fetch : List Char → Option WikiResponse) (s : σ)
    (h : cfg.external_api_failure_rate = 1) :
    WikipediaClient.get_signal σ E cfg pq fetch s
      = (ExtOutcome.raised, (E.next s).2) := by
  unfold WikipediaClient.get_signal
  rw [if_pos (by rw [h]; exact E.next_lt_one s)]

theorem mem_rank_iff (R : Ranker) (cs : List SearchIndexResult)
    (preds : List Char → Option ModelPrediction) (sig : Option ExternalSignal)
    (res : SearchResult) :
    res ∈ Ranker.rank R cs preds sig
      ↔ res ∈ cs.map (rankedResultOf R preds (externalScoreOf sig)) := by
  unfold Ranker.rank sortDescByScore
  exact List.mem_insertionSort scoreGe

/-- C2: per-candidate model failures and external-signal failures never abort
the request.  With the model-failure rate forced to `1` the handler still
produces a ranked response in which the recommendation explanation component
of every result is exactly `0` while the search components are exactly the
candidate base scores and the external component is the one computed from
the (unaffected) external response; with the external-failure rate forced to
`1` the handler still produces a ranked response in which the external
explanation component of every result is exactly `0`. -/
theorem handler_chaos_degradation (σ : Type) (E : PyEnv σ) (cfgM cfgE : ChaosConfig)
    (featuresOf : SearchIndexResult → FeatureVector) (R : Ranker)
    (cs : List SearchIndexResult) (fetch : List Char → Option WikiResponse)
    (pq : ParsedQuery) (s s' : σ)
    (hM : cfgM.model_failure_rate = 1)
    (hMf : cfgM.external_api_failure_rate = 0)
    (hMt : cfgM.external_api_timeout_rate = 0)
    (hE : cfgE.external_api_failure_rate = 1) :
    (∀ res ∈ searchHandlerAfterIndex σ E cfgM featuresOf R cs fetch pq s,
        res.explanations.recommendation = 0
        ∧ res.explanations.external
            = externalScoreOf (pureSignal (fetch (pq.tokens.headD ("search".toList)))))
    ∧ ((searchHandlerAfterIndex σ E cfgM featuresOf R cs fetch pq s).map
          (fun r => r.explanations.search)).Perm
        (cs.map SearchIndexResult.base_score)
    ∧ (∀ res ∈ searchHandlerAfterIndex σ E cfgE featuresOf R cs fetch pq s',
        res.explanations.external = 0) := by
  have hplM : (predsLoop σ E cfgM featuresOf cs (fun _ => none) s 0).1
      = (fun _ => none) :=
    predsLoop_rate_one σ E cfgM featuresOf hM cs (fun _ => none) s 0
  have hhM : searchHandlerAfterIndex σ E cfgM featuresOf R cs fetch pq s
      = Ranker.rank R cs (fun _ => none)
          (pureSignal (fetch (pq.tokens.headD ("search".toList)))) := by
    unfold searchHandlerAfterIndex
    dsimp only
    rw [get_signal_no_chaos σ E cfgM pq fetch _ hMf hMt, hplM]
  have hhE : searchHandlerAfterIndex σ E cfgE featuresOf R cs fetch pq s'
      = Ranker.rank R cs
          (predsLoop σ E cfgE featuresOf cs (fun _ => none) s' 0).1 none := by
    unfold searchHandlerAfterIndex
    dsimp only
    rw [get_signal_raises_of_rate_one σ E cfgE pq fetch _ hE]
  refine ⟨?_, ?_, ?_⟩
  · intro res hres
    rw [hhM, mem_rank_iff] at hres
    obtain ⟨d, _, rfl⟩ := List.mem_map.mp hres
    exact ⟨rfl, rfl⟩
  · rw [hhM]
    have hperm : (Ranker.rank R cs (fun _ => none)
          (pureSignal (fetch (pq.tokens.headD ("search".toList))))).Perm
        (cs.map (rankedResultOf R (fun _ => none)
          (externalScoreOf (pureSignal (fetch (pq.tokens.headD ("search".toList))))))) :=
      List.perm_insertionSort scoreGe _
    refine (hperm.map (fun r => r.explanations.search)).trans ?_
    rw [List.map_map]
    exact List.Perm.refl _
  · intro res hres
    rw [hhE, mem_rank_iff] at hres
    obtain ⟨d, _, rfl⟩ := List.mem_map.mp hres
    rfl

/-- Chaos configuration with the model-failure rate forced to `1` and the
external rates zeroed. -/
def cfgM0 : ChaosConfig :=
  { model_failure_rate := 1
    external_api_timeout_rate := 0
    slow_search_rate := 0
    external_api_failure_rate := 0 }

/-- Chaos configuration with the external-failure rate forced to `1`. -/
def cfgE0 : ChaosConfig :=
  { model_failure_rate := 0
    external_api_timeout_rate := 0
    slow_search_rate := 0
    external_api_failure_rate := 1 }

/-- A concrete index candidate. -/
def d0 : SearchIndexResult :=
  { doc_id := "d1".toList, title := "t".toList, text := "x".toList,
    base_score := 1 / 2, match_count := 0 }

/-- A concrete well-formed 200 response with a 3-character extract. -/
def respW0 : WikiResponse := { status_code := 200, extract := some ("abc".toList), pageviews := none }

/-- Witness for `handler_chaos_degradation`: the two chaos scenarios run on a
one-candidate index result under the concrete runtime `E0`. -/
theorem handler_chaos_degradation_witness :
    (∀ res ∈ searchHandlerAfterIndex Nat E0 cfgM0 (fun _ => f0) defaultRanker
        [d0] (fun _ => some respW0) ⟨[], [], [], QueryIntent.discovery, 0⟩ 0,
        res.explanations.recommendation = 0
        ∧ res.explanations.external
            = externalScoreOf (pureSignal (some respW0)))
    ∧ ((searchHandlerAfterIndex Nat E0 cfgM0 (fun _ => f0) defaultRanker
          [d0] (fun _ => some respW0) ⟨[], [], [], QueryIntent.discovery, 0⟩ 0).map
          (fun r => r.explanations.search)).Perm
        ([d0].map SearchIndexResult.base_score)
    ∧ (∀ res ∈ searchHandlerAfterIndex Nat E0 cfgE0 (fun _ => f0) defaultRanker
        [d0] (fun _ => some respW0) ⟨[], [], [], QueryIntent.discovery, 0⟩ 0,
        res.explanations.external = 0) :=
  handler_chaos_degradation Nat E0 cfgM0 cfgE0 (fun _ => f0) defaultRanker
    [d0] (fun _ => some respW0) ⟨[], [], [], QueryIntent.discovery, 0⟩ 0 0
    rfl rfl rfl rfl
